import Mathlib

/-!
# Verification development for the hashd-social waitlist API

A shallow embedding of the waitlist backend: the Mongoose `Waitlist` model
(`src/models/Waitlist.js`), the `WaitlistService` store operations
(`src/services/waitlistService.js`), the HTTP controllers
(`src/controllers/waitlistController.js`, `src/controllers/adminController.js`)
and the wallet-signature auth middleware (`src/middleware/auth.js`).

The document store is modelled as a list of entries; MongoDB single-document
operations (`findOne`, `findOneAndUpdate`, `findByIdAndUpdate`, `insertOne`
under a unique email index) become first-match list operations.  Timestamps
are natural numbers; `Date.now` is passed explicitly as a `now` argument.
-/

set_option autoImplicit false

namespace Hashd

/-- Entry status enum from the `Waitlist` schema:
`['pending', 'approved', 'rejected']`, default `pending`. -/
inductive Status where
  | pending
  | approved
  | rejected
deriving DecidableEq, Repr

/-- Role enum from the `Waitlist` schema: `['developer', 'community_builder',
'investor', 'content_creator', 'early_adopter', 'other']`. -/
inductive Role where
  | developer
  | community_builder
  | investor
  | content_creator
  | early_adopter
  | other
deriving DecidableEq, Repr

/-- A waitlist document, following the fields of the `Waitlist` Mongoose
schema.  `id` models the Mongo `_id`; missing optional fields are `none`. -/
structure Entry where
  id : Nat
  name : String
  email : String
  walletAddress : Option String := none
  roles : List Role := []
  note : Option String := none
  xHandle : Option String := none
  emailVerified : Bool := false
  verificationToken : Option String := none
  posted : Bool := false
  postUrl : Option String := none
  status : Status := .pending
  createdAt : Nat := 0
  updatedAt : Nat := 0
deriving DecidableEq, Repr

/-- The `waitlist` collection, as an ordered list of documents. -/
abbrev Store := List Entry

/-- JavaScript `String.prototype.toLowerCase()` restricted to the ASCII
data (emails, hex wallet addresses) this service lowercases. -/
def lowerStr (s : String) : String :=
  String.mk (s.data.map Char.toLower)

/-- `waitlistSchema.methods.toSafeObject`: the document with the sensitive
`verificationToken` field removed. -/
def toSafeObject (e : Entry) : Entry :=
  { e with verificationToken := none }

/-! ## Store lookups (`waitlistService.js` / `Waitlist.js` statics) -/

/-- `Waitlist.findByVerificationToken` /
`findOne({ verificationToken: token })`: first document whose token field
equals the given string. -/
def findByVerificationToken (s : Store) (t : String) : Option Entry :=
  s.find? fun e => e.verificationToken = some t

/-- `Waitlist.findById(id)`. -/
def findById (s : Store) (i : Nat) : Option Entry :=
  s.find? fun e => e.id = i

/-- `WaitlistService.findByPostUrl` / `findOne({ postUrl })`. -/
def findByPostUrl (s : Store) (url : String) : Option Entry :=
  s.find? fun e => e.postUrl = some url

/-- A Mongo update of the single document with the given `_id`
(`findByIdAndUpdate` and `updateOne({ _id })`). -/
def updateById (s : Store) (i : Nat) (f : Entry → Entry) : Store :=
  match s with
  | [] => []
  | e :: rest => if e.id = i then f e :: rest else e :: updateById rest i f

/-! ## Email verification (`waitlistService.verifyEmail`,
`waitlistController.verifyEmail`, `GET /api/verify-email/:token`) -/

/-- The `$set` payload of `WaitlistService.verifyEmail`'s
`findOneAndUpdate`: `emailVerified: true, status: 'approved',
verificationToken: null`, with `updatedAt` refreshed by the schema's
pre-`findOneAndUpdate` middleware. -/
def verifiedEntry (e : Entry) (now : Nat) : Entry :=
  { e with
    emailVerified := true
    status := .approved
    verificationToken := none
    updatedAt := now }

/-- `WaitlistService.verifyEmail(token)`:
`findOneAndUpdate({ verificationToken: token }, {...}, { new: true })` —
updates the first document holding the token, in one store operation, and
returns the updated document (or `none` when no document matches). -/
def verifyEmail (s : Store) (t : String) (now : Nat) : Store × Option Entry :=
  match s with
  | [] => ([], none)
  | e :: rest =>
    if e.verificationToken = some t then
      (verifiedEntry e now :: rest, some (verifiedEntry e now))
    else
      let r := verifyEmail rest t now
      (e :: r.1, r.2)

/-- Outcome of `GET /api/verify-email/:token`
(`WaitlistController.verifyEmail`). -/
inductive VerifyResult where
  | missingToken
  | tokenNotFound
  | alreadyVerified (email : String)
  | verified (email : String)
deriving DecidableEq, Repr

/-- `WaitlistController.verifyEmail`: 400 when the token is missing, 404
when no document holds it, 200/`alreadyVerified` when the holder is
already verified, otherwise the single consuming update followed by 200. -/
def controllerVerifyEmail (s : Store) (token : String) (now : Nat) :
    Store × VerifyResult :=
  if token = "" then (s, .missingToken)
  else
    match findByVerificationToken s token with
    | none => (s, .tokenNotFound)
    | some entry =>
      if entry.emailVerified then (s, .alreadyVerified entry.email)
      else ((verifyEmail s token now).1, .verified entry.email)

/-! ## Public submission (`waitlistService.createEntry`,
`waitlistController.submit`) -/

/-- Request body of `POST /api/waitlist` as destructured by
`WaitlistService.createEntry` (validation already done by the boundary
middleware). -/
structure SubmitData where
  name : String
  email : String
  walletAddress : Option String := none
  roles : List Role := []
  note : Option String := none
  xHandle : Option String := none
deriving DecidableEq, Repr

/-- The document built by `WaitlistService.createEntry`: email lowercased,
note kept only when non-blank after trimming, xHandle trimmed and
lowercased, `emailVerified: false`, the freshly generated
`verificationToken`, `status: 'pending'`.  `crypto.randomBytes` is
modelled by passing the generated token in; the store-assigned `_id` and
the schema timestamps are passed in likewise. -/
def mkEntry (d : SubmitData) (token : String) (i now : Nat) : Entry :=
  { id := i
    name := d.name
    email := lowerStr d.email
    walletAddress := d.walletAddress
    roles := d.roles
    note :=
      match d.note with
      | some n => if n.trim = "" then none else some n.trim
      | none => none
    xHandle :=
      match d.xHandle with
      | some x => if x.trim = "" then none else some (lowerStr x.trim)
      | none => none
    emailVerified := false
    verificationToken := some token
    posted := false
    postUrl := none
    status := .pending
    createdAt := now
    updatedAt := now }

/-- `insertOne` / Mongoose `save` under the unique index on `email`
(`createIndex({ email: 1 }, { unique: true })`): the insert fails with a
duplicate-key error (Mongo code 11000) when a document with the same
(lowercased) email already exists. -/
def insertEntry (s : Store) (e : Entry) : Store × Bool :=
  if s.any fun x => x.email = e.email then (s, false)
  else (s ++ [e], true)

/-- Outcome of `POST /api/waitlist` (`WaitlistController.submit`). -/
inductive SubmitResult where
  | created (i : Nat) (email : String)
  | duplicateEmail
deriving DecidableEq, Repr

/-- `WaitlistController.submit`: create the entry; a duplicate-key error
(code 11000) maps to the 409 "already on the waitlist" response.  The
verification email send is fire-and-forget and does not affect the
result. -/
def submit (s : Store) (d : SubmitData) (token : String) (i now : Nat) :
    Store × SubmitResult :=
  let e := mkEntry d token i now
  match insertEntry s e with
  | (s', true) => (s', .created i e.email)
  | (s', false) => (s', .duplicateEmail)

/-! ## Admin resend verification (`adminController.resendVerification`) -/

/-- Outcome of `POST /api/admin/waitlist/:id/resend-verification`
(`AdminController.resendVerification`).  `sent tok fresh` records which
token the email was sent with and whether it was freshly generated. -/
inductive ResendResult where
  | notFound
  | alreadyVerified
  | sent (token : String) (fresh : Bool)
deriving DecidableEq, Repr

/-- `AdminController.resendVerification`: 404 when the id is unknown, 400
when the entry is already verified; otherwise reuse the stored token when
one exists, and only when the entry has none generate a fresh one
(`crypto.randomBytes`, modelled by the `freshToken` argument) and save it
(the pre-`save` middleware refreshes `updatedAt`). -/
def resendVerification (s : Store) (i : Nat) (freshToken : String)
    (now : Nat) : Store × ResendResult :=
  match findById s i with
  | none => (s, .notFound)
  | some e =>
    if e.emailVerified then (s, .alreadyVerified)
    else
      match e.verificationToken with
      | some tok => (s, .sent tok false)
      | none =>
        (updateById s i fun x =>
          { x with verificationToken := some freshToken, updatedAt := now },
         .sent freshToken true)

/-! ## Admin wallet-signature auth (`src/middleware/auth.js`) -/

/-- Outcome of the `verifyWalletSignature` middleware. -/
inductive AuthResult where
  | unauthenticated
  | adminNotConfigured
  | forbidden
  | authorized (wallet : String)
deriving DecidableEq, Repr

/-- `verifyWalletSignature` from `src/middleware/auth.js`.  `recover`
models `ethers.verifyMessage(message, signature)`; a `none` result models
the throw on a malformed signature, caught and turned into 401.  Control
flow: 401 when a credential is missing, 401 when the recovered address
does not match the claimed `walletAddress` case-insensitively, 500 when
`ADMIN_WALLET_ADDRESS` is unset, 403 when the claimed address is not the
configured admin case-insensitively, else proceed with the lowercased
wallet attached. -/
def verifyWalletSignature (recover : String → String → Option String)
    (adminWallet : Option String)
    (walletAddress signature message : String) : AuthResult :=
  if walletAddress = "" ∨ signature = "" ∨ message = "" then
    .unauthenticated
  else
    match recover message signature with
    | none => .unauthenticated
    | some recovered =>
      if lowerStr recovered ≠ lowerStr walletAddress then .unauthenticated
      else
        match adminWallet with
        | none => .adminNotConfigured
        | some admin =>
          if lowerStr walletAddress ≠ lowerStr admin then .forbidden
          else .authorized (lowerStr walletAddress)

/-! ## Statistics (`waitlistSchema.statics.getStatistics`) -/

/-- Result shape of `Waitlist.getStatistics`. -/
structure Stats where
  total : Nat
  verified : Nat
  pending : Nat
  approved : Nat
  rejected : Nat
  unverified : Nat
deriving DecidableEq, Repr

/-- `Waitlist.getStatistics`: five `countDocuments` calls plus
`unverified: total - verified`. -/
def getStatistics (s : Store) : Stats :=
  let total := s.length
  let verified := (s.filter fun e => e.emailVerified).length
  { total := total
    verified := verified
    pending := (s.filter fun e => e.status = .pending).length
    approved := (s.filter fun e => e.status = .approved).length
    rejected := (s.filter fun e => e.status = .rejected).length
    unverified := total - verified }

/-! ## Post URL recording (`waitlistController.savePost`) -/

/-- JavaScript regex `\w`: `[A-Za-z0-9_]`. -/
def isWordChar (c : Char) : Bool :=
  c.isAlphanum || c = '_'

/-- The capture-and-rebuild of `savePost` after one of the two domain
prefixes: greedily read the `\w+` username, require the literal
`/status/`, greedily read the `\d+` tweet id, and discard any remainder
(query string or fragment). -/
def parsePostPath (domain : String) (rest : List Char) : Option String :=
  let user := rest.takeWhile isWordChar
  let rest1 := rest.dropWhile isWordChar
  if user.isEmpty then none
  else if "/status/".toList.isPrefixOf rest1 then
    let digits := (rest1.drop 8).takeWhile Char.isDigit
    if digits.isEmpty then none
    else some ("https://" ++ domain ++ "/" ++ String.mk user ++ "/status/"
               ++ String.mk digits)
  else none

/-- The sanitization step of `savePost`: match the post URL against
`^https:\/\/(twitter\.com|x\.com)\/(\w+)\/status\/(\d+)` and rebuild
`https://{domain}/{username}/status/{tweetId}`, dropping query parameters
and fragments; `none` when the regex does not match. -/
def sanitizePostUrl (url : String) : Option String :=
  let cs := url.toList
  if "https://twitter.com/".toList.isPrefixOf cs then
    parsePostPath "twitter.com" (cs.drop 20)
  else if "https://x.com/".toList.isPrefixOf cs then
    parsePostPath "x.com" (cs.drop 14)
  else none

/-- Outcome of `POST /api/waitlist/save-post`
(`WaitlistController.savePost`). -/
inductive SavePostResult where
  | missingFields
  | invalidUrlFormat
  | notFound
  | notVerified
  | postUrlInUse
  | saved (canonical : String)
deriving DecidableEq, Repr

/-- The read phase of `savePost` on store state `s`: everything before the
write.  Returns the canonical URL to store when all checks pass, or the
error response.  In the source each step is a separate awaited store
round trip. -/
def savePostCheck (s : Store) (userId : Option Nat)
    (postUrl : Option String) : Except SavePostResult String :=
  match userId, postUrl with
  | some uid, some url =>
    match sanitizePostUrl url with
    | none => .error .invalidUrlFormat
    | some canonical =>
      match findById s uid with
      | none => .error .notFound
      | some entry =>
        if !entry.emailVerified then .error .notVerified
        else
          match findByPostUrl s canonical with
          | some existing =>
            if existing.id ≠ uid then .error .postUrlInUse
            else .ok canonical
          | none => .ok canonical
  | _, _ => .error .missingFields

/-- The write phase of `savePost`:
`WaitlistService.updatePostStatus(id, url)` — a `findByIdAndUpdate`
setting `posted: true` and `postUrl`, with `updatedAt` refreshed by the
pre-`findOneAndUpdate` middleware.  It does not re-check uniqueness. -/
def savePostWrite (s : Store) (uid : Nat) (canonical : String)
    (now : Nat) : Store :=
  updateById s uid fun x =>
    { x with posted := true, postUrl := some canonical, updatedAt := now }

/-- `WaitlistController.savePost` run in isolation: the read phase
followed by the write phase on the same store state. -/
def savePost (s : Store) (userId : Option Nat) (postUrl : Option String)
    (now : Nat) : Store × SavePostResult :=
  match savePostCheck s userId postUrl with
  | .error r => (s, r)
  | .ok canonical =>
    match userId with
    | some uid => (savePostWrite s uid canonical now, .saved canonical)
    | none => (s, .missingFields)

/-! ## Store indexes (`connectDB` in the legacy `server.js`) -/

/-- The indexes `connectDB` creates on the `waitlist` collection, as
(field, unique?) pairs: a unique index on `email`, sparse non-unique
indexes on `walletAddress` and `verificationToken`, and a sort index on
`createdAt`.  The Mongoose schema adds non-unique indexes only. -/
def connectDBIndexes : List (String × Bool) :=
  [("email", true), ("walletAddress", false), ("createdAt", false),
   ("verificationToken", false)]

/-! ## Admin listing (`waitlistSchema.statics.getPaginated`,
`adminController.getEntries`) -/

/-- Contiguous-substring test over character lists, used to model the
case-insensitive `$regex` search of `getPaginated` for plain search
terms. -/
def containsChars (needle : List Char) : List Char → Bool
  | [] => needle.isEmpty
  | c :: rest => needle.isPrefixOf (c :: rest) || containsChars needle rest

/-- The Mongo query `getPaginated` builds: optional status equality plus
an optional case-insensitive search over name or email. -/
def matchesQuery (status : Option Status) (search : Option String)
    (e : Entry) : Bool :=
  (match status with
   | some st => e.status = st
   | none => true) &&
  (match search with
   | some q =>
     containsChars (lowerStr q).toList (lowerStr e.name).toList ||
     containsChars (lowerStr q).toList (lowerStr e.email).toList
   | none => true)

/-- Pagination metadata returned by `getPaginated`. -/
structure Pagination where
  page : Nat
  limit : Nat
  total : Nat
  pages : Nat
deriving DecidableEq, Repr

/-- `Waitlist.getPaginated`: filter, sort by `createdAt` descending, skip
`(page - 1) * limit`, take `limit`; the documents are returned as raw
`.lean()` objects, with no projection applied. -/
def getPaginated (s : Store) (page limit : Nat) (status : Option Status)
    (search : Option String) : List Entry × Pagination :=
  let filtered := s.filter (matchesQuery status search)
  let total := filtered.length
  let sorted := filtered.insertionSort fun a b => b.createdAt ≤ a.createdAt
  let entries := (sorted.drop ((page - 1) * limit)).take limit
  (entries,
   { page := page, limit := limit, total := total,
     pages := if limit = 0 then 0 else (total + limit - 1) / limit })

/-- `AdminController.getEntries` → `WaitlistService.getEntries` →
`Waitlist.getPaginated`: the controller spreads the service result into
the 200 response unchanged. -/
def adminGetEntries (s : Store) (page limit : Nat) (status : Option Status)
    (search : Option String) : List Entry × Pagination :=
  getPaginated s page limit status search

/-! ## Helper lemmas about token lookup and consumption -/

/-- `verifyEmail` updates exactly the first token holder that
`findByVerificationToken` returns, replacing it in place and leaving every
other document untouched. -/
theorem verifyEmail_decomp (t : String) (now : Nat) :
    ∀ (s : Store) (e : Entry), findByVerificationToken s t = some e →
      ∃ pre post, s = pre ++ e :: post ∧
        (∀ x ∈ pre, x.verificationToken ≠ some t) ∧
        e.verificationToken = some t ∧
        verifyEmail s t now =
          (pre ++ verifiedEntry e now :: post, some (verifiedEntry e now))
  | [], e, h => by simp [findByVerificationToken] at h
  | a :: rest, e, h => by
    by_cases ha : a.verificationToken = some t
    · have he : a = e := by
        simpa [findByVerificationToken, List.find?_cons, ha] using h
      subst he
      exact ⟨[], rest, rfl, by simp, ha, by simp [verifyEmail, ha]⟩
    · have h' : findByVerificationToken rest t = some e := by
        simpa [findByVerificationToken, List.find?_cons, ha] using h
      obtain ⟨pre, post, hs, hpre, htok, hver⟩ :=
        verifyEmail_decomp t now rest e h'
      refine ⟨a :: pre, post, by simp [hs], ?_, htok, ?_⟩
      · intro x hx
        rcases List.mem_cons.mp hx with hxa | hxp
        · simpa [hxa] using ha
        · exact hpre x hxp
      · simp [verifyEmail, ha, hver]

/-- After the consuming update, no document holds the old token (assuming
the token occurred in at most one document, which the sparse index and
256-bit random generation ensure in practice). -/
theorem verifyEmail_consumes (s : Store) (t : String) (now : Nat)
    (e : Entry)
    (h : findByVerificationToken s t = some e)
    (huniq : (s.filter fun x => x.verificationToken = some t).length ≤ 1) :
    findByVerificationToken (verifyEmail s t now).1 t = none := by
  obtain ⟨pre, post, hs, hpre, htok, hver⟩ := verifyEmail_decomp t now s e h
  have hfilpre : pre.filter (fun x => x.verificationToken = some t) = [] := by
    simp only [List.filter_eq_nil_iff]
    intro x hx
    simpa using hpre x hx
  have hpost : ∀ x ∈ post, x.verificationToken ≠ some t := by
    subst hs
    rw [List.filter_append, hfilpre] at huniq
    simp only [List.nil_append, List.filter_cons, if_pos, htok] at huniq
    have : (post.filter fun x => x.verificationToken = some t).length = 0 := by
      simp only [decide_eq_true_eq, htok, if_true, List.length_cons] at huniq
      omega
    intro x hx hcontra
    have : x ∈ post.filter fun y => y.verificationToken = some t :=
      List.mem_filter.mpr ⟨hx, by simpa using hcontra⟩
    simp_all [List.length_eq_zero]
  rw [hver]
  simp only [findByVerificationToken, List.find?_eq_none]
  intro x hx
  rcases List.mem_append.mp hx with hxpre | hxrest
  · simpa using hpre x hxpre
  · rcases List.mem_cons.mp hxrest with hxe | hxpost
    · simp [hxe, verifiedEntry]
    · simpa using hpost x hxpost

/-! ## Concrete sample data for witnesses -/

/-- A freshly submitted entry: unverified, pending, holding token
`"tok"`. -/
def sampleEntry : Entry :=
  { id := 1, name := "Al", email := "al@example.com",
    verificationToken := some "tok" }

/-- A one-document store holding `sampleEntry`. -/
def sampleStore : Store := [sampleEntry]

/-! ## Claim C1 -/

/-- C1: for every entry that is unverified and holds an issued token, the
first successful verification call with that token sets
`emailVerified = true`, sets `status = 'approved'`, removes the
verification token, and refreshes `updatedAt`, all in one store update:
the store after `controllerVerifyEmail` is the old store with exactly that
one document replaced by `verifiedEntry e now`, produced by the single
`findOneAndUpdate` modelled by `verifyEmail`. -/
theorem verify_first_success_atomic_update
    (s : Store) (t : String) (now : Nat) (e : Entry)
    (ht : t ≠ "")
    (h : findByVerificationToken s t = some e)
    (hunv : e.emailVerified = false) :
    ∃ pre post, s = pre ++ e :: post ∧
      verifyEmail s t now =
        (pre ++ verifiedEntry e now :: post, some (verifiedEntry e now)) ∧
      controllerVerifyEmail s t now =
        (pre ++ verifiedEntry e now :: post, .verified e.email) ∧
      (verifiedEntry e now).emailVerified = true ∧
      (verifiedEntry e now).status = .approved ∧
      (verifiedEntry e now).verificationToken = none ∧
      (verifiedEntry e now).updatedAt = now := by
  obtain ⟨pre, post, hs, _, _, hver⟩ := verifyEmail_decomp t now s e h
  refine ⟨pre, post, hs, hver, ?_, rfl, rfl, rfl, rfl⟩
  simp [controllerVerifyEmail, ht, h, hunv, hver]

/-- Witness for C1 at a concrete store: one unverified entry holding the
token `"tok"`. -/
theorem verify_first_success_atomic_update_witness :
    ∃ pre post, sampleStore = pre ++ sampleEntry :: post ∧
      verifyEmail sampleStore "tok" 5 =
        (pre ++ verifiedEntry sampleEntry 5 :: post,
         some (verifiedEntry sampleEntry 5)) ∧
      controllerVerifyEmail sampleStore "tok" 5 =
        (pre ++ verifiedEntry sampleEntry 5 :: post,
         .verified sampleEntry.email) ∧
      (verifiedEntry sampleEntry 5).emailVerified = true ∧
      (verifiedEntry sampleEntry 5).status = .approved ∧
      (verifiedEntry sampleEntry 5).verificationToken = none ∧
      (verifiedEntry sampleEntry 5).updatedAt = 5 :=
  verify_first_success_atomic_update sampleStore "tok" 5 sampleEntry
    (by decide) rfl rfl

/-! ## Claim C3 -/

/-- C3: after the first successful verification consumed the token, any
subsequent lookup by the old token value finds no document
(`findByVerificationToken` returns `none`) and the verify endpoint fails
with 404 `TokenNotFound`, assuming the token occurred in at most one
document. -/
theorem consumed_token_lookup_fails
    (s : Store) (t : String) (now now' : Nat) (e : Entry)
    (ht : t ≠ "")
    (h : findByVerificationToken s t = some e)
    (hunv : e.emailVerified = false)
    (huniq : (s.filter fun x => x.verificationToken = some t).length ≤ 1) :
    findByVerificationToken (controllerVerifyEmail s t now).1 t = none ∧
    (controllerVerifyEmail (controllerVerifyEmail s t now).1 t now').2 =
      .tokenNotFound := by
  have hstore : (controllerVerifyEmail s t now).1 = (verifyEmail s t now).1 := by
    simp [controllerVerifyEmail, ht, h, hunv]
  have hnone : findByVerificationToken (verifyEmail s t now).1 t = none :=
    verifyEmail_consumes s t now e h huniq
  refine ⟨by rw [hstore]; exact hnone, ?_⟩
  rw [hstore]
  simp [controllerVerifyEmail, ht, hnone]

/-- Witness for C3 at a concrete store. -/
theorem consumed_token_lookup_fails_witness :
    findByVerificationToken
      (controllerVerifyEmail sampleStore "tok" 5).1 "tok" = none ∧
    (controllerVerifyEmail
      (controllerVerifyEmail sampleStore "tok" 5).1 "tok" 6).2 =
      .tokenNotFound :=
  consumed_token_lookup_fails sampleStore "tok" 5 6 sampleEntry
    (by decide) rfl rfl (by decide)

/-! ## Claim C2 (corrected) -/

/-- C2 as stated is false on the code: with one unverified entry holding
the originally valid token `"tok"`, the first call verifies it, and the
second call with the same token value returns 404 `TokenNotFound` — an
error, not `alreadyVerified = true` — because the first call nulled the
token field. -/
theorem verify_second_call_not_alreadyVerified_counterexample :
    (controllerVerifyEmail sampleStore "tok" 1).2 =
      .verified "al@example.com" ∧
    (controllerVerifyEmail
      (controllerVerifyEmail sampleStore "tok" 1).1 "tok" 2).2 =
      .tokenNotFound := by
  exact ⟨rfl, rfl⟩

/-- C2 amended: `verifyByToken` is not idempotent.  For a token that was
originally valid on an unverified entry (and held by at most one
document), the first call succeeds, and a second call with the same token
value fails with 404 `TokenNotFound`; the `alreadyVerified = true`
response arises only for a document that is verified while still holding
a token, a state the verification flow itself never produces. -/
theorem verify_second_call_tokenNotFound
    (s : Store) (t : String) (now now' : Nat) (e : Entry)
    (ht : t ≠ "")
    (h : findByVerificationToken s t = some e)
    (hunv : e.emailVerified = false)
    (huniq : (s.filter fun x => x.verificationToken = some t).length ≤ 1) :
    (controllerVerifyEmail s t now).2 = .verified e.email ∧
    (controllerVerifyEmail (controllerVerifyEmail s t now).1 t now').2 =
      .tokenNotFound := by
  have hstore : (controllerVerifyEmail s t now).1 = (verifyEmail s t now).1 := by
    simp [controllerVerifyEmail, ht, h, hunv]
  have hnone : findByVerificationToken (verifyEmail s t now).1 t = none :=
    verifyEmail_consumes s t now e h huniq
  constructor
  · simp [controllerVerifyEmail, ht, h, hunv]
  · rw [hstore]
    simp [controllerVerifyEmail, ht, hnone]

/-- Witness for the amended C2 at a concrete store. -/
theorem verify_second_call_tokenNotFound_witness :
    (controllerVerifyEmail sampleStore "tok" 1).2 =
      .verified sampleEntry.email ∧
    (controllerVerifyEmail
      (controllerVerifyEmail sampleStore "tok" 1).1 "tok" 2).2 =
      .tokenNotFound :=
  verify_second_call_tokenNotFound sampleStore "tok" 1 2 sampleEntry
    (by decide) rfl rfl (by decide)

/-! ## Claim C4 -/

/-- C4: `resendVerification` on a verified entry fails with the domain
error `alreadyVerified` (400); on an unverified entry that still holds a
token it reuses that token unchanged and leaves the store untouched (no
new token is generated); it stores the freshly generated token only when
the unverified entry has none. -/
theorem resend_token_policy
    (s : Store) (i : Nat) (fresh : String) (now : Nat) (e : Entry)
    (h : findById s i = some e) :
    (e.emailVerified = true →
      resendVerification s i fresh now = (s, .alreadyVerified)) ∧
    (∀ tok, e.emailVerified = false → e.verificationToken = some tok →
      resendVerification s i fresh now = (s, .sent tok false)) ∧
    (e.emailVerified = false → e.verificationToken = none →
      resendVerification s i fresh now =
        (updateById s i fun x =>
          { x with verificationToken := some fresh, updatedAt := now },
         .sent fresh true)) := by
  refine ⟨?_, ?_, ?_⟩
  · intro hv
    simp [resendVerification, h, hv]
  · intro tok hv htok
    simp [resendVerification, h, hv, htok]
  · intro hv htok
    simp [resendVerification, h, hv, htok]

/-- Witness for C4 at the concrete sample store (unverified entry holding
`"tok"`). -/
theorem resend_token_policy_witness :
    (sampleEntry.emailVerified = true →
      resendVerification sampleStore 1 "fresh" 9 =
        (sampleStore, .alreadyVerified)) ∧
    (∀ tok, sampleEntry.emailVerified = false →
      sampleEntry.verificationToken = some tok →
      resendVerification sampleStore 1 "fresh" 9 =
        (sampleStore, .sent tok false)) ∧
    (sampleEntry.emailVerified = false →
      sampleEntry.verificationToken = none →
      resendVerification sampleStore 1 "fresh" 9 =
        (updateById sampleStore 1 fun x =>
          { x with verificationToken := some "fresh", updatedAt := 9 },
         .sent "fresh" true)) :=
  resend_token_policy sampleStore 1 "fresh" 9 sampleEntry rfl

/-! ## Claim C5 -/

/-- C5: given the three credentials present and a recoverable signature,
the admin auth middleware (with a configured admin address) fails 401
`unauthenticated` whenever the recovered address differs
case-insensitively from the claimed `walletAddress`; fails 403
`forbidden` whenever the signature is self-consistent but the address is
not the configured admin case-insensitively; and authorizes only the
configured admin address. -/
theorem adminAuth_spec (recover : String → String → Option String)
    (admin wa sig msg recovered : String)
    (hwa : wa ≠ "") (hsig : sig ≠ "") (hmsg : msg ≠ "")
    (hrec : recover msg sig = some recovered) :
    (lowerStr recovered ≠ lowerStr wa →
      verifyWalletSignature recover (some admin) wa sig msg =
        .unauthenticated) ∧
    (lowerStr recovered = lowerStr wa → lowerStr wa ≠ lowerStr admin →
      verifyWalletSignature recover (some admin) wa sig msg =
        .forbidden) ∧
    (∀ w, verifyWalletSignature recover (some admin) wa sig msg =
        .authorized w →
      lowerStr wa = lowerStr admin ∧ w = lowerStr wa) := by
  have hnot : ¬(wa = "" ∨ sig = "" ∨ msg = "") := by
    simp [hwa, hsig, hmsg]
  refine ⟨?_, ?_, ?_⟩
  · intro hne
    simp [verifyWalletSignature, hnot, hrec, hne]
  · intro heq hne
    simp [verifyWalletSignature, hnot, hrec, heq, hne]
  · intro w hw
    by_cases h1 : lowerStr recovered = lowerStr wa
    · by_cases h2 : lowerStr wa = lowerStr admin
      · have hval : verifyWalletSignature recover (some admin) wa sig msg =
            .authorized (lowerStr wa) := by
          simp [verifyWalletSignature, hnot, hrec, h1, h2]
        have hinj := hval.symm.trans hw
        refine ⟨h2, ?_⟩
        injection hinj with h
        exact h.symm
      · simp [verifyWalletSignature, hnot, hrec, h1, h2] at hw
    · simp [verifyWalletSignature, hnot, hrec, h1] at hw

/-- Witness for C5: a self-consistent signature from `0xAB`, with `0xCD`
configured as admin, is rejected 403. -/
theorem adminAuth_spec_witness :
    (lowerStr "0xAB" ≠ lowerStr "0xAB" →
      verifyWalletSignature (fun _ _ => some "0xAB") (some "0xCD")
        "0xAB" "sig" "msg" = .unauthenticated) ∧
    (lowerStr "0xAB" = lowerStr "0xAB" →
      lowerStr "0xAB" ≠ lowerStr "0xCD" →
      verifyWalletSignature (fun _ _ => some "0xAB") (some "0xCD")
        "0xAB" "sig" "msg" = .forbidden) ∧
    (∀ w, verifyWalletSignature (fun _ _ => some "0xAB") (some "0xCD")
        "0xAB" "sig" "msg" = .authorized w →
      lowerStr "0xAB" = lowerStr "0xCD" ∧ w = lowerStr "0xAB") :=
  adminAuth_spec (fun _ _ => some "0xAB") "0xCD" "0xAB" "sig" "msg"
    "0xAB" (by decide) (by decide) (by decide) rfl

/-! ## Claim C6 -/

/-- C6: for any two submissions whose emails agree after case folding, if
the first is created then the second fails with the 409
`duplicateEmail` response: the first insert stored the lowercased email,
and the unique email index makes the second insert fail with the
duplicate-key error the controller maps to 409. -/
theorem duplicate_email_case_insensitive
    (s : Store) (d1 d2 : SubmitData) (t1 t2 em : String)
    (i1 i2 n1 n2 : Nat)
    (hcase : lowerStr d1.email = lowerStr d2.email)
    (h1 : (submit s d1 t1 i1 n1).2 = .created i1 em) :
    (submit (submit s d1 t1 i1 n1).1 d2 t2 i2 n2).2 = .duplicateEmail := by
  by_cases hany : s.any fun x => x.email = (mkEntry d1 t1 i1 n1).email
  · simp [submit, insertEntry, hany] at h1
  · set s1 := (submit s d1 t1 i1 n1).1 with hs1def
    have hs1 : s1 = s ++ [mkEntry d1 t1 i1 n1] := by
      simp [hs1def, submit, insertEntry, hany]
    have hmem : (s1.any fun x => x.email = (mkEntry d2 t2 i2 n2).email)
        = true := by
      rw [hs1]
      refine List.any_eq_true.mpr ⟨mkEntry d1 t1 i1 n1, by simp, ?_⟩
      simp [mkEntry, hcase]
    have hins : insertEntry s1 (mkEntry d2 t2 i2 n2) = (s1, false) := by
      unfold insertEntry
      rw [if_pos hmem]
    simp only [submit]
    rw [hins]

/-- Witness for C6: `JOHN@EX.COM` then `john@Ex.com` into an empty
store. -/
theorem duplicate_email_case_insensitive_witness :
    (submit
      (submit [] { name := "John", email := "JOHN@EX.COM",
                   roles := [.developer] } "t1" 7 3).1
      { name := "Johnny", email := "john@Ex.com", roles := [.other] }
      "t2" 8 4).2 = .duplicateEmail :=
  duplicate_email_case_insensitive []
    { name := "John", email := "JOHN@EX.COM", roles := [.developer] }
    { name := "Johnny", email := "john@Ex.com", roles := [.other] }
    "t1" "t2" "john@ex.com" 7 8 3 4 (by decide) rfl

/-! ## Claim C7 -/

/-- C7: for every store state, `getStatistics` satisfies
`verified + unverified = total` and
`pending + approved + rejected = total`. -/
theorem statistics_consistent (s : Store) :
    (getStatistics s).verified + (getStatistics s).unverified =
      (getStatistics s).total ∧
    (getStatistics s).pending + (getStatistics s).approved +
      (getStatistics s).rejected = (getStatistics s).total := by
  have hle : (s.filter fun e => e.emailVerified).length ≤ s.length :=
    List.length_filter_le _ _
  have hpart : ∀ l : Store,
      (l.filter fun e => e.status = .pending).length +
      (l.filter fun e => e.status = .approved).length +
      (l.filter fun e => e.status = .rejected).length = l.length := by
    intro l
    induction l with
    | nil => simp
    | cons e rest ih =>
      cases he : e.status <;>
        simp [List.filter_cons, he] <;> omega
  constructor
  · simp only [getStatistics]
    omega
  · simp only [getStatistics]
    exact hpart s

/-! ## Claim C8 -/

/-- C8: `savePost`, called for a verified entry with a well-formed post
URL, fails with the 400 `postUrlInUse` response (leaving the store
unchanged) when the canonicalized URL is already stored on a different
entry, and succeeds without error when the first holder of that canonical
URL is the requesting entry itself (idempotent for the owner). -/
theorem savePost_url_uniqueness
    (s : Store) (uid : Nat) (url canonical : String) (e : Entry)
    (now : Nat)
    (hsan : sanitizePostUrl url = some canonical)
    (hfind : findById s uid = some e)
    (hver : e.emailVerified = true) :
    (∀ ex, findByPostUrl s canonical = some ex → ex.id ≠ uid →
      savePost s (some uid) (some url) now = (s, .postUrlInUse)) ∧
    (∀ ex, findByPostUrl s canonical = some ex → ex.id = uid →
      (savePost s (some uid) (some url) now).2 = .saved canonical) := by
  constructor
  · intro ex hfp hne
    simp [savePost, savePostCheck, hsan, hfind, hver, hfp, hne]
  · intro ex hfp heq
    simp [savePost, savePostCheck, hsan, hfind, hver, hfp, heq]

/-- A verified entry that already owns the canonical post URL
`https://x.com/bo/status/42`. -/
def ownerEntry : Entry :=
  { id := 2, name := "Bo", email := "bo@example.com",
    emailVerified := true, status := .approved, posted := true,
    postUrl := some "https://x.com/bo/status/42" }

/-- Witness for C8: the owner resubmits its own post URL (with a query
string attached). -/
theorem savePost_url_uniqueness_witness :
    (∀ ex, findByPostUrl [ownerEntry] "https://x.com/bo/status/42" =
        some ex → ex.id ≠ 2 →
      savePost [ownerEntry] (some 2)
        (some "https://x.com/bo/status/42?utm=1") 5 =
        ([ownerEntry], .postUrlInUse)) ∧
    (∀ ex, findByPostUrl [ownerEntry] "https://x.com/bo/status/42" =
        some ex → ex.id = 2 →
      (savePost [ownerEntry] (some 2)
        (some "https://x.com/bo/status/42?utm=1") 5).2 =
        .saved "https://x.com/bo/status/42") :=
  savePost_url_uniqueness [ownerEntry] 2
    "https://x.com/bo/status/42?utm=1" "https://x.com/bo/status/42"
    ownerEntry 5 (by decide) rfl rfl

/-! ## Claim C9 -/

/-- A verified entry with no post URL, for the write-race scenario. -/
def raceA : Entry :=
  { id := 1, name := "Ann", email := "ann@example.com",
    emailVerified := true, status := .approved }

/-- A second verified entry with no post URL. -/
def raceB : Entry :=
  { id := 2, name := "Ben", email := "ben@example.com",
    emailVerified := true, status := .approved }

/-- Store with the two verified entries of the race scenario. -/
def raceStore : Store := [raceA, raceB]

/-- C9 (code bug): post-URL uniqueness is not enforced at the store
layer.  `connectDB` creates a unique index on `email` only and the
Mongoose schema declares `postUrl` without `unique`, while `savePost`
does an application-level check-then-write (`findByPostUrl`, then a
separate awaited `updatePostStatus`).  Interleaving two requests for the
same canonical URL as read-read-write-write: both read-phase checks pass
against the initial store, both writes then go through, and the final
store holds two different entries with the same canonical `postUrl` —
exactly what the claimed store-layer enforcement would forbid. -/
theorem savePost_race_both_succeed :
    savePostCheck raceStore (some 1) (some "https://x.com/ann/status/7")
      = .ok "https://x.com/ann/status/7" ∧
    savePostCheck raceStore (some 2) (some "https://x.com/ann/status/7")
      = .ok "https://x.com/ann/status/7" ∧
    ((savePostWrite
        (savePostWrite raceStore 1 "https://x.com/ann/status/7" 5)
        2 "https://x.com/ann/status/7" 6).filter
      fun e => e.postUrl = some "https://x.com/ann/status/7").length = 2 ∧
    connectDBIndexes.all (fun p => !(p.1 = "postUrl" && p.2)) = true := by
  refine ⟨rfl, rfl, rfl, rfl⟩

/-! ## Claim C10 -/

/-- C10 (implicit): the admin listing path returns each stored document
verbatim — `getPaginated` uses `.lean()` with no projection and
`AdminController.getEntries` spreads the result into the response — so
every unverified entry's secret `verificationToken` appears in the
response payload; the safe projection `toSafeObject` is never applied on
this path (the returned document differs from its safe projection). -/
theorem adminGetEntries_returns_verification_token
    (s : Store) (e : Entry) (t : String)
    (hmem : e ∈ s) (htok : e.verificationToken = some t) :
    ∃ x ∈ (adminGetEntries s 1 s.length none none).1,
      x.verificationToken = some t ∧ toSafeObject x ≠ x := by
  have hfil : s.filter (matchesQuery none none) = s := by
    simp [matchesQuery]
  refine ⟨e, ?_, htok, ?_⟩
  · have hperm :
        List.Perm
          ((s.filter (matchesQuery none none)).insertionSort
            fun a b => b.createdAt ≤ a.createdAt)
          (s.filter (matchesQuery none none)) :=
      List.perm_insertionSort _ _
    have hlen :
        ((s.filter (matchesQuery none none)).insertionSort
          (fun a b => b.createdAt ≤ a.createdAt)).length = s.length := by
      rw [hperm.length_eq, hfil]
    have hmem' :
        e ∈ (s.filter (matchesQuery none none)).insertionSort
          (fun a b => b.createdAt ≤ a.createdAt) := by
      rw [hperm.mem_iff, hfil]
      exact hmem
    have hdrop : (1 - 1) * s.length = 0 := by simp
    simp only [adminGetEntries, getPaginated, hdrop, List.drop_zero]
    rw [List.take_of_length_le hlen.le]
    exact hmem'
  · intro hcontra
    have : (toSafeObject e).verificationToken = e.verificationToken :=
      congrArg Entry.verificationToken hcontra
    simp [toSafeObject, htok] at this

/-- Witness for C10: the sample store's unverified entry surfaces its
token `"tok"` in the admin listing. -/
theorem adminGetEntries_returns_verification_token_witness :
    ∃ x ∈ (adminGetEntries sampleStore 1 sampleStore.length none none).1,
      x.verificationToken = some "tok" ∧ toSafeObject x ≠ x :=
  adminGetEntries_returns_verification_token sampleStore sampleEntry "tok"
    (by simp [sampleStore]) rfl

end Hashd
